import Mathlib

/-!
Verification of the core logic of `amadeus_meteo_v3.py`: the weather
classifier (`classify_weather`, `preset_categories`) and the activity
filter/sort/paginate pipeline, together with the session-state page
transitions.  Python floats are modelled as `ℚ`, the possibly-NaN average
temperature as `Option ℚ` (`none` = NaN, `float("nan")`), and fallible
lookups as `Option`.
-/

namespace AmadeusMeteo

/-- One row of the `weather_rows` table built by `last_three_years_weather`:
keys `"Year"`, `"Max °C"`, `"Min °C"`, `"Precip mm"`. -/
structure WeatherSample where
  year : Int
  maxTempC : ℚ
  minTempC : ℚ
  precipMm : ℚ
deriving DecidableEq

/-- `classify_weather(rows)` from the source:
`rain_flag = sum(r["Precip mm"] > 0 for r in rows) >= 2` (a Python sum of
booleans, i.e. a sum of 0/1 indicators) and
`avg_temp = sum((r["Max °C"] + r["Min °C"]) / 2 for r in rows) / len(rows)
if rows else float("nan")`.  NaN is modelled as `none`. -/
def classify_weather (rows : List WeatherSample) : Bool × Option ℚ :=
  let rain_flag : Bool :=
    decide (2 ≤ (rows.map (fun r => if 0 < r.precipMm then (1 : ℕ) else 0)).sum)
  let avg_temp : Option ℚ :=
    if rows.isEmpty then none
    else some ((rows.map (fun r => (r.maxTempC + r.minTempC) / 2)).sum / rows.length)
  (rain_flag, avg_temp)

/-- IEEE-style `<` between a possibly-NaN float and a real number, as Python
evaluates `avg_t < 15`: every comparison with NaN (`none`) is `False`. -/
def pyLt (a : Option ℚ) (b : ℚ) : Bool :=
  match a with
  | none => false
  | some x => decide (x < b)

/-- `preset_categories(rain, avg_t)` from the source: three branches tried
in order (`if rain`, `if avg_t < 15`, else). -/
def preset_categories (rain : Bool) (avg_t : Option ℚ) : List String :=
  if rain then ["Museums", "Restaurants", "Historical", "Sightseeing"]
  else if pyLt avg_t 15 then ["Museums", "Historical", "Tours", "Sightseeing"]
  else ["Wine", "Historical"]

/-- The spec's "rain" category set. -/
def rainPreset : List String := ["Museums", "Restaurants", "Historical", "Sightseeing"]

/-- The spec's "cold, no rain" category set. -/
def coldPreset : List String := ["Museums", "Historical", "Tours", "Sightseeing"]

/-- The spec's "warm, no rain" category set. -/
def warmPreset : List String := ["Wine", "Historical"]

/-- A Python scalar as it matters to `float(x or -1)`: its truthiness and the
rational value `float(x)` denotes when `x` is truthy.  The JSON number `0`
and the empty string are falsy (`truthy = false`); the string `"0"` is
truthy with value 0. -/
structure PyScalar where
  truthy : Bool
  val : ℚ
deriving DecidableEq

/-- The Python scalar for a JSON number `q`: falsy exactly when `q = 0`. -/
def PyScalar.ofNum (q : ℚ) : PyScalar := ⟨decide (q ≠ 0), q⟩

/-- The Python scalar for the empty string: falsy (its `val` is never
consulted because `x or -1` short-circuits). -/
def PyScalar.emptyStr : PyScalar := ⟨false, 0⟩

/-- An activity record as the pipeline reads it: `a.get("name", "")`,
`a.get("shortDescription", "")` (absent fields become `""`),
`a.get("rating")` (`none` when absent), and
`a.get("price", {}).get("amount", float("inf"))` (`none` when the price or
its amount is absent). -/
structure Activity where
  name : String
  shortDescription : String
  rating : Option PyScalar
  priceAmount : Option ℚ
deriving DecidableEq

/-- `leadsWith pat l` is true iff `pat` is an initial segment of `l`. -/
def leadsWith : List Char → List Char → Bool
  | [], _ => true
  | _ :: _, [] => false
  | p :: ps, c :: cs => p == c && leadsWith ps cs

/-- Python's substring test `pat in hay` on character lists: `pat` occurs
contiguously somewhere in `hay`. -/
def hasSub : List Char → List Char → Bool
  | [], pat => leadsWith pat []
  | c :: t, pat => leadsWith pat (c :: t) || hasSub t pat

/-- Python's substring test `pat in hay` on strings. -/
def strHasSub (hay pat : String) : Bool := hasSub hay.data pat.data

/-- The case-folded haystack the filter matches against:
`(a.get("name", "") + " " + a.get("shortDescription", "")).lower()`. -/
def searchText (a : Activity) : String :=
  (a.name ++ " " ++ a.shortDescription).toLower

/-- The `acts_filtered` list comprehension from the source:
`[a for a in acts_raw if not kw_list or any(kw in text(a) for kw in kw_list)]`. -/
def acts_filtered (kw_list : List String) (acts_raw : List Activity) : List Activity :=
  acts_raw.filter (fun a =>
    kw_list.isEmpty || kw_list.any (fun kw => strHasSub (searchText a) kw))

/-- The rating sort key `float(a.get("rating") or -1)`: `-1` when the rating
is absent or falsy, else its float value. -/
def ratingKey (r : Option PyScalar) : ℚ :=
  match r with
  | none => -1
  | some v => if v.truthy then v.val else -1

/-- The price sort key
`float(a.get("price", {}).get("amount", float("inf")))`: `+∞` when the price
amount is absent, else its float value. -/
def priceKey (p : Option ℚ) : WithTop ℚ :=
  match p with
  | none => ⊤
  | some q => (q : WithTop ℚ)

/-- The five values of the `Sort` selectbox: `"None"`, `"Rating ↓"`,
`"Rating ↑"`, `"Price ↓"`, `"Price ↑"`. -/
inductive SortOrder where
  | noSort
  | ratingDesc
  | ratingAsc
  | priceDesc
  | priceAsc
deriving DecidableEq

/-- The comparator realised by Python's stable `list.sort(key=key,
reverse=desc)`: ascending on keys, or descending (`reverse=True` flips the
key comparison while keeping ties in input order). -/
def keyLe {α κ : Type*} [LinearOrder κ] (key : α → κ) (desc : Bool) (a b : α) : Bool :=
  if desc then decide (key b ≤ key a) else decide (key a ≤ key b)

/-- The sorting step of section 11 of the source: no-op for `"None"`;
otherwise a stable sort (`list.sort`) by the rating or price key, with
`reverse = ("↓" in sort_order)`. -/
def sortActs (ord : SortOrder) (l : List Activity) : List Activity :=
  match ord with
  | .noSort => l
  | .ratingDesc => l.mergeSort (keyLe (fun a => ratingKey a.rating) true)
  | .ratingAsc => l.mergeSort (keyLe (fun a => ratingKey a.rating) false)
  | .priceDesc => l.mergeSort (keyLe (fun a => priceKey a.priceAmount) true)
  | .priceAsc => l.mergeSort (keyLe (fun a => priceKey a.priceAmount) false)

/-- Result of the pagination step: the rendered slice, the clamped current
page, and the page count. -/
structure PageResult where
  pageItems : List Activity
  effectivePage : ℤ
  totalPages : ℕ
deriving DecidableEq

/-- `pages = max(1, math.ceil(total / page_size))`, with `math.ceil` of the
exact quotient rendered as ceiling division on naturals. -/
def totalPagesFn (total pageSize : ℕ) : ℕ :=
  max 1 ((total + pageSize - 1) / pageSize)

/-- `st.session_state.page = max(1, min(st.session_state.page, pages))`. -/
def clampPage (req : ℤ) (pages : ℕ) : ℤ :=
  max 1 (min req (pages : ℤ))

/-- The pagination step of section 11 of the source: compute `pages`, clamp
the requested page, and slice
`acts_filtered[(page - 1) * page_size : page * page_size]`. -/
def paginate (l : List Activity) (pageSize : ℕ) (req : ℤ) : PageResult :=
  let pages := totalPagesFn l.length pageSize
  let page := clampPage req pages
  { pageItems := (l.drop ((page - 1).toNat * pageSize)).take pageSize
    effectivePage := page
    totalPages := pages }

/-- The `st.session_state` fields the page-reset claims are about. -/
structure SessionState where
  page : ℤ
  haveResults : Bool
  usePreset : Bool
  activeCats : List String
deriving DecidableEq

/-- The `Find Activities` button handler:
`st.session_state.update(have_results=True, page=1)`. -/
def findActivitiesClick (s : SessionState) : SessionState :=
  { s with haveResults := true, page := 1 }

/-- The category-preset application block of section 10 of the source: when
`use_preset` is set, store `preset_categories(rain_flag, avg_temp)` as the
new selection and clear the flag (the `page` field is not touched). -/
def applyPresetStep (rainFlag : Bool) (avgTemp : Option ℚ) (s : SessionState) : SessionState :=
  if s.usePreset then
    { s with activeCats := preset_categories rainFlag avgTemp, usePreset := false }
  else s

/-- The defensive clamp the pipeline applies to the stored page on every
run, from section 11 of the source. -/
def clampPageStep (total pageSize : ℕ) (s : SessionState) : SessionState :=
  { s with page := clampPage s.page (totalPagesFn total pageSize) }

/-- A Python sum of booleans over a list is the count of elements satisfying
the predicate. -/
theorem sum_indicator_eq_countP {α : Type*} (p : α → Prop) [DecidablePred p]
    (l : List α) :
    (l.map (fun r => if p r then (1 : ℕ) else 0)).sum = l.countP (fun r => decide (p r)) := by
  induction l with
  | nil => simp
  | cons x t ih =>
    by_cases hx : p x <;> simp [List.countP_cons, ih, hx, Nat.add_comm]

/-- The weather rows of the spec's end-to-end example: precipitation
`0`, `2.1`, `0.5` over the three lookback years (temperatures chosen
arbitrarily). -/
def demoRows : List WeatherSample :=
  [⟨2024, 20, 10, 0⟩, ⟨2023, 18, 8, 21/10⟩, ⟨2022, 16, 6, 1/2⟩]

/-- C1: for every list of 0 to 3 weather samples, `classify_weather` returns
`rain_flag = true` iff at least 2 samples have positive precipitation, and
the average temperature is the mean of the per-sample midpoints; for the
empty list it returns `(false, none)` (`none` = NaN), and it is total so it
never throws. -/
theorem C1_classify_weather (rows : List WeatherSample) (hlen : rows.length ≤ 3) :
    ((classify_weather rows).1 = true ↔
      2 ≤ rows.countP (fun r => decide (0 < r.precipMm))) ∧
    (rows ≠ [] →
      (classify_weather rows).2 =
        some ((rows.map (fun r => (r.maxTempC + r.minTempC) / 2)).sum / (rows.length : ℚ))) ∧
    (rows = [] → classify_weather rows = (false, none)) := by
  refine ⟨?_, ?_, ?_⟩
  · simp [classify_weather, sum_indicator_eq_countP (fun r : WeatherSample => 0 < r.precipMm)]
  · intro h
    simp [classify_weather, h]
  · intro h
    subst h
    simp [classify_weather]

/-- Witness for C1 at the spec's example rows: 3 samples, 2 of them with
positive precipitation. -/
theorem C1_witness :
    demoRows.length ≤ 3 ∧ demoRows ≠ [] ∧
    ((classify_weather demoRows).1 = true ↔
      2 ≤ demoRows.countP (fun r => decide (0 < r.precipMm))) ∧
    (classify_weather demoRows).2 =
      some ((demoRows.map (fun r => (r.maxTempC + r.minTempC) / 2)).sum / (demoRows.length : ℚ)) :=
  ⟨by decide, by decide, (C1_classify_weather demoRows (by decide)).1,
    (C1_classify_weather demoRows (by decide)).2.1 (by decide)⟩

/-- C2: `preset_categories` follows the three-branch decision table in
priority order: rain always yields the rain set; otherwise temperatures
below 15 yield the cold set and temperatures at or above 15 (including the
boundary 15.0 itself) yield the warm set. -/
theorem C2_preset_categories (t : ℚ) :
    (∀ avg : Option ℚ, preset_categories true avg = rainPreset) ∧
    (t < 15 → preset_categories false (some t) = coldPreset) ∧
    (15 ≤ t → preset_categories false (some t) = warmPreset) := by
  refine ⟨fun avg => rfl, fun h => ?_, fun h => ?_⟩
  · simp [preset_categories, pyLt, h, coldPreset]
  · simp [preset_categories, pyLt, not_lt.mpr h, warmPreset]

/-- Witness for C2 at the spec's boundary inputs 14.9 and 15.0. -/
theorem C2_witness :
    preset_categories false (some (149/10)) = coldPreset ∧
    preset_categories false (some 15) = warmPreset :=
  ⟨(C2_preset_categories (149/10)).2.1 (by norm_num),
    (C2_preset_categories 15).2.2 (by norm_num)⟩

/-- C3: with zero weather samples the average temperature is NaN (`none`),
the comparison `NaN < 15` is `False`, and `preset_categories(false, NaN)`
falls through to the warm branch. -/
theorem C3_preset_nan :
    (classify_weather []).2 = none ∧
    pyLt (classify_weather []).2 15 = false ∧
    preset_categories false (classify_weather []).2 = warmPreset :=
  ⟨rfl, rfl, rfl⟩

/-- C9 as stated is false: the rain set and the cold set share `"Museums"`
yet differ (the rain set contains `"Restaurants"`, the cold set does not),
so this pair of preset sets is neither equal nor disjoint. -/
theorem C9_counterexample :
    "Museums" ∈ preset_categories true none ∧
    "Museums" ∈ preset_categories false (some 0) ∧
    "Restaurants" ∈ preset_categories true none ∧
    "Restaurants" ∉ preset_categories false (some 0) := by
  decide

/-- C9 amended: `preset_categories` is pure and total, always returning one
of the three fixed sets, but those sets do partially overlap: all three
contain `"Historical"`, and each pair of sets is distinguished by some
category, so no two are equal and no two are disjoint. -/
theorem C9_presets_overlap :
    (∀ (r : Bool) (avg : Option ℚ),
      preset_categories r avg = rainPreset ∨ preset_categories r avg = coldPreset ∨
        preset_categories r avg = warmPreset) ∧
    ("Historical" ∈ rainPreset ∧ "Historical" ∈ coldPreset ∧ "Historical" ∈ warmPreset) ∧
    ("Restaurants" ∈ rainPreset ∧ "Restaurants" ∉ coldPreset ∧ "Restaurants" ∉ warmPreset) ∧
    ("Tours" ∈ coldPreset ∧ "Tours" ∉ rainPreset ∧ "Tours" ∉ warmPreset) ∧
    ("Wine" ∈ warmPreset ∧ "Wine" ∉ rainPreset ∧ "Wine" ∉ coldPreset) := by
  refine ⟨?_, by decide, by decide, by decide, by decide⟩
  intro r avg
  cases r
  · cases hb : pyLt avg 15
    · right; right; simp [preset_categories, hb, warmPreset]
    · right; left; simp [preset_categories, hb, coldPreset]
  · left; rfl

/-- `leadsWith` decides the prefix relation. -/
theorem leadsWith_iff (pat l : List Char) :
    leadsWith pat l = true ↔ ∃ post, l = pat ++ post := by
  induction pat generalizing l with
  | nil =>
    simp [leadsWith]
  | cons p ps ih =>
    cases l with
    | nil => simp [leadsWith]
    | cons c cs =>
      simp only [leadsWith, Bool.and_eq_true, beq_iff_eq, ih, List.cons_append,
        List.cons.injEq]
      constructor
      · rintro ⟨rfl, post, rfl⟩
        exact ⟨post, rfl, rfl⟩
      · rintro ⟨post, rfl, rfl⟩
        exact ⟨rfl, post, rfl⟩

/-- `hasSub` decides contiguous-substring occurrence. -/
theorem hasSub_iff (hay pat : List Char) :
    hasSub hay pat = true ↔ ∃ pre post, hay = pre ++ pat ++ post := by
  induction hay with
  | nil =>
    simp only [hasSub, leadsWith_iff]
    constructor
    · rintro ⟨post, h⟩
      exact ⟨[], post, by simpa using h⟩
    · rintro ⟨pre, post, h⟩
      rw [List.append_assoc] at h
      rcases List.append_eq_nil.mp h.symm with ⟨rfl, h2⟩
      rcases List.append_eq_nil.mp h2 with ⟨rfl, rfl⟩
      exact ⟨[], rfl⟩
  | cons c t ih =>
    simp only [hasSub, Bool.or_eq_true, leadsWith_iff, ih]
    constructor
    · rintro (⟨post, h⟩ | ⟨pre, post, h⟩)
      · exact ⟨[], post, by simpa using h⟩
      · exact ⟨c :: pre, post, by simp [h]⟩
    · rintro ⟨pre, post, h⟩
      cases pre with
      | nil => exact Or.inl ⟨post, by simpa using h⟩
      | cons x xs =>
        rcases List.cons.injEq .. ▸ h with ⟨rfl, h2⟩
        exact Or.inr ⟨xs, post, h2⟩

/-- C4: the category filter keeps an activity iff the keyword list is empty
or the case-folded `name + " " + shortDescription` text contains one of the
keywords as a contiguous substring, and the survivors form a sublist of the
input (their relative order is preserved). -/
theorem C4_filter (kws : List String) (acts : List Activity) :
    (∀ a, a ∈ acts_filtered kws acts ↔
      a ∈ acts ∧ (kws = [] ∨ ∃ kw ∈ kws, ∃ pre post,
        (searchText a).data = pre ++ kw.data ++ post)) ∧
    (acts_filtered kws acts).Sublist acts := by
  refine ⟨fun a => ?_, List.filter_sublist acts⟩
  simp [acts_filtered, List.mem_filter, List.isEmpty_iff, List.any_eq_true,
    strHasSub, hasSub_iff]

/-- The key comparator is transitive. -/
theorem keyLe_trans {α κ : Type*} [LinearOrder κ] (key : α → κ) (desc : Bool) :
    ∀ a b c, keyLe key desc a b → keyLe key desc b c → keyLe key desc a c := by
  intro a b c h1 h2
  cases desc
  · simp only [keyLe, Bool.false_eq_true, if_false, decide_eq_true_eq] at h1 h2 ⊢
    exact le_trans h1 h2
  · simp only [keyLe, if_true, decide_eq_true_eq] at h1 h2 ⊢
    exact le_trans h2 h1

/-- The key comparator is total. -/
theorem keyLe_total {α κ : Type*} [LinearOrder κ] (key : α → κ) (desc : Bool) :
    ∀ a b, keyLe key desc a b || keyLe key desc b a := by
  intro a b
  cases desc
  · simpa [keyLe] using le_total (key a) (key b)
  · simpa [keyLe] using le_total (key b) (key a)

/-- Elements with equal keys compare `true` in either direction. -/
theorem keyLe_of_eq {α κ : Type*} [LinearOrder κ] (key : α → κ) (desc : Bool)
    {a b : α} (h : key a = key b) : keyLe key desc a b = true := by
  cases desc <;> simp [keyLe, h]

/-- Restricting a list to the elements with one fixed key yields a list that
is sorted for the key comparator (all comparisons are ties). -/
theorem pairwise_filter_keyEq {α κ : Type*} [LinearOrder κ] [DecidableEq κ]
    (key : α → κ) (desc : Bool) (l : List α) (k : κ) :
    (l.filter (fun a => decide (key a = k))).Pairwise
      (fun a b => keyLe key desc a b = true) := by
  induction l with
  | nil => simp
  | cons x t ih =>
    by_cases hx : key x = k
    · rw [List.filter_cons, if_pos (by simpa using hx)]
      refine List.Pairwise.cons (fun b hb => ?_) ih
      have hbk : key b = k := of_decide_eq_true (List.mem_filter.mp hb).2
      exact keyLe_of_eq key desc (hx.trans hbk.symm)
    · rw [List.filter_cons, if_neg (by simpa using hx)]
      exact ih

/-- Stability of the modelled sort: the subsequence of elements carrying any
one key value is unchanged by sorting, i.e. ties keep their input order. -/
theorem mergeSort_filter_key {α κ : Type*} [LinearOrder κ] [DecidableEq κ]
    (key : α → κ) (desc : Bool) (l : List α) (k : κ) :
    (l.mergeSort (keyLe key desc)).filter (fun a => decide (key a = k)) =
      l.filter (fun a => decide (key a = k)) := by
  have hsub : (l.filter (fun a => decide (key a = k))).Sublist
      (l.mergeSort (keyLe key desc)) :=
    List.sublist_mergeSort (keyLe_trans key desc) (keyLe_total key desc)
      (pairwise_filter_keyEq key desc l k) (List.filter_sublist l)
  have hidem : (l.filter (fun a => decide (key a = k))).filter
      (fun a => decide (key a = k)) = l.filter (fun a => decide (key a = k)) :=
    List.filter_eq_self.mpr (fun a ha => (List.mem_filter.mp ha).2)
  have h2 : (l.filter (fun a => decide (key a = k))).Sublist
      ((l.mergeSort (keyLe key desc)).filter (fun a => decide (key a = k))) := by
    have h3 := hsub.filter (fun a => decide (key a = k))
    rwa [hidem] at h3
  have hlen : ((l.mergeSort (keyLe key desc)).filter (fun a => decide (key a = k))).length =
      (l.filter (fun a => decide (key a = k))).length :=
    ((List.mergeSort_perm l (keyLe key desc)).filter _).length_eq
  exact (h2.eq_of_length hlen.symm).symm

/-- The modelled sort output is pairwise ordered by the key comparator. -/
theorem sorted_keyLe {α κ : Type*} [LinearOrder κ] (key : α → κ) (desc : Bool)
    (l : List α) :
    (l.mergeSort (keyLe key desc)).Pairwise (fun a b => keyLe key desc a b = true) :=
  List.sorted_mergeSort (keyLe_trans key desc) (keyLe_total key desc) l

/-- Three concrete activities: a wine tour with rating 4.2 and price 30, a
museum with no rating and price 12, and a viewpoint with rating 0 (a falsy
value) and no price. -/
def demoActs : List Activity :=
  [⟨"Vineyard Tour", "Taste local wine", some (PyScalar.ofNum (21/5)), some 30⟩,
   ⟨"City Museum", "", none, some 12⟩,
   ⟨"Panorama View", "view point", some (PyScalar.ofNum 0), none⟩]

/-- C5: for every activity list and sort order, sorting permutes the input,
`"None"` leaves it unchanged, rating sorts are ordered by the rating key
(missing rating ↦ -1, hence minimal among 0–5 ratings: first ascending,
last descending) and price sorts by the price key (missing amount ↦ +∞,
hence maximal: last ascending, first descending), and sorting is stable:
the subsequence of activities carrying any fixed key value is exactly its
input subsequence, so equal-key activities retain their relative order. -/
theorem C5_sort (l : List Activity) :
    sortActs .noSort l = l ∧
    (∀ ord, (sortActs ord l).Perm l) ∧
    (sortActs .ratingDesc l).Pairwise
      (fun a b => ratingKey b.rating ≤ ratingKey a.rating) ∧
    (sortActs .ratingAsc l).Pairwise
      (fun a b => ratingKey a.rating ≤ ratingKey b.rating) ∧
    (sortActs .priceDesc l).Pairwise
      (fun a b => priceKey b.priceAmount ≤ priceKey a.priceAmount) ∧
    (sortActs .priceAsc l).Pairwise
      (fun a b => priceKey a.priceAmount ≤ priceKey b.priceAmount) ∧
    (∀ (ord : SortOrder) (k : ℚ), ord = .ratingDesc ∨ ord = .ratingAsc →
      (sortActs ord l).filter (fun a => decide (ratingKey a.rating = k)) =
        l.filter (fun a => decide (ratingKey a.rating = k))) ∧
    (∀ (ord : SortOrder) (k : WithTop ℚ), ord = .priceDesc ∨ ord = .priceAsc →
      (sortActs ord l).filter (fun a => decide (priceKey a.priceAmount = k)) =
        l.filter (fun a => decide (priceKey a.priceAmount = k))) ∧
    ratingKey none = -1 ∧
    (∀ v : PyScalar, 0 ≤ v.val → ratingKey none ≤ ratingKey (some v)) ∧
    priceKey none = ⊤ ∧
    (∀ p : Option ℚ, priceKey p ≤ priceKey none) := by
  refine ⟨rfl, ?_, ?_, ?_, ?_, ?_, ?_, ?_, rfl, ?_, rfl, ?_⟩
  · intro ord
    cases ord
    · exact List.Perm.refl l
    all_goals exact List.mergeSort_perm l _
  · exact (sorted_keyLe (fun a : Activity => ratingKey a.rating) true l).imp
      (fun h => by simpa [keyLe] using h)
  · exact (sorted_keyLe (fun a : Activity => ratingKey a.rating) false l).imp
      (fun h => by simpa [keyLe] using h)
  · exact (sorted_keyLe (fun a : Activity => priceKey a.priceAmount) true l).imp
      (fun h => by simpa [keyLe] using h)
  · exact (sorted_keyLe (fun a : Activity => priceKey a.priceAmount) false l).imp
      (fun h => by simpa [keyLe] using h)
  · rintro ord k (rfl | rfl)
    · exact mergeSort_filter_key (fun a : Activity => ratingKey a.rating) true l k
    · exact mergeSort_filter_key (fun a : Activity => ratingKey a.rating) false l k
  · rintro ord k (rfl | rfl)
    · exact mergeSort_filter_key (fun a : Activity => priceKey a.priceAmount) true l k
    · exact mergeSort_filter_key (fun a : Activity => priceKey a.priceAmount) false l k
  · intro v hv
    by_cases ht : v.truthy
    · simp only [ratingKey, ht, if_true]
      linarith
    · simp [ratingKey, ht]
  · intro p
    exact le_top

/-- Witness for C5 at the three demo activities, with the hypotheses of the
stability and key-order conjuncts discharged at `ratingDesc`, key `-1`, and
the rating value 4.2. -/
theorem C5_witness :
    (sortActs .ratingDesc demoActs).Perm demoActs ∧
    (sortActs .ratingDesc demoActs).filter
        (fun a => decide (ratingKey a.rating = (-1 : ℚ))) =
      demoActs.filter (fun a => decide (ratingKey a.rating = (-1 : ℚ))) ∧
    ratingKey none ≤ ratingKey (some (PyScalar.ofNum (21/5))) :=
  ⟨(C5_sort demoActs).2.1 .ratingDesc,
    (C5_sort demoActs).2.2.2.2.2.2.1 .ratingDesc (-1) (Or.inl rfl),
    (C5_sort demoActs).2.2.2.2.2.2.2.2.2.1 (PyScalar.ofNum (21/5)) (by norm_num [PyScalar.ofNum])⟩

/-- C10: a present-but-falsy rating (the number 0, the empty string) gets
the sort key `-1`, the same key as a missing rating, so in the descending
rating sort such an activity ties with - and is ordered among, not strictly
above - the missing-rating activities. -/
theorem C10_falsy_rating (v : PyScalar) (hv : v.truthy = false) :
    ratingKey (some v) = -1 ∧
    ratingKey (some v) = ratingKey none ∧
    ratingKey (some (PyScalar.ofNum 0)) = -1 ∧
    ratingKey (some PyScalar.emptyStr) = -1 ∧
    (∀ a b : Activity, a.rating = some v → b.rating = none →
      keyLe (fun x : Activity => ratingKey x.rating) true a b = true ∧
      keyLe (fun x : Activity => ratingKey x.rating) true b a = true) := by
  refine ⟨by simp [ratingKey, hv], by simp [ratingKey, hv], by decide, by decide, ?_⟩
  intro a b ha hb
  have hk : ratingKey a.rating = ratingKey b.rating := by
    simp [ha, hb, ratingKey, hv]
  exact ⟨keyLe_of_eq _ true hk, keyLe_of_eq _ true hk.symm⟩

/-- Witness for C10 at the falsy rating value 0 and two concrete
activities. -/
theorem C10_witness :
    ratingKey (some (PyScalar.ofNum 0)) = -1 ∧
    ratingKey (some (PyScalar.ofNum 0)) = ratingKey none ∧
    keyLe (fun x : Activity => ratingKey x.rating) true
      ⟨"Panorama View", "view point", some (PyScalar.ofNum 0), none⟩
      ⟨"City Museum", "", none, some 12⟩ = true :=
  ⟨(C10_falsy_rating (PyScalar.ofNum 0) (by decide)).1,
    (C10_falsy_rating (PyScalar.ofNum 0) (by decide)).2.1,
    ((C10_falsy_rating (PyScalar.ofNum 0) (by decide)).2.2.2.2
      ⟨"Panorama View", "view point", some (PyScalar.ofNum 0), none⟩
      ⟨"City Museum", "", none, some 12⟩ rfl rfl).1⟩

/-- A natural number lying in the ceiling-division window `[a, a + b - 1]`
after multiplication by `b` is the rational ceiling of `a / b`. -/
theorem ceil_eq_of_bounds (n a b : ℕ) (hb : 0 < b) (h1 : a ≤ n * b)
    (h2 : n * b ≤ a + b - 1) : (n : ℤ) = ⌈(a : ℚ) / (b : ℚ)⌉ := by
  have hbq : (0 : ℚ) < (b : ℚ) := by exact_mod_cast hb
  have hb1 : (1 : ℚ) ≤ (b : ℚ) := by exact_mod_cast hb
  have h2q : (n : ℚ) * b ≤ (a : ℚ) + b - 1 := by
    have hc : ((a + b - 1 : ℕ) : ℚ) = (a : ℚ) + b - 1 := by
      have h3 : 1 ≤ a + b := by omega
      push_cast [Nat.cast_sub h3]
      ring
    calc (n : ℚ) * b = ((n * b : ℕ) : ℚ) := by push_cast; ring
      _ ≤ ((a + b - 1 : ℕ) : ℚ) := by exact_mod_cast h2
      _ = (a : ℚ) + b - 1 := hc
  have h1q : (a : ℚ) ≤ (n : ℚ) * b := by exact_mod_cast h1
  symm
  rw [Int.ceil_eq_iff]
  constructor
  · rw [lt_div_iff₀ hbq]
    push_cast
    linarith
  · rw [div_le_iff₀ hbq]
    push_cast
    linarith

/-- Ceiling division reaches the dividend: `a ≤ ((a + b - 1) / b) * b`. -/
theorem le_ceilDivNat_mul (a b : ℕ) (hb : 0 < b) : a ≤ ((a + b - 1) / b) * b := by
  rcases Nat.eq_zero_or_pos a with rfl | ha
  · simp
  · have h : a + b - 1 = (a - 1) + b := by omega
    rw [h, Nat.add_div_right _ hb, Nat.add_mul, Nat.one_mul]
    have h2 : a - 1 < (a - 1) / b * b + b := Nat.lt_div_mul_add hb
    calc a = (a - 1) + 1 := by omega
      _ ≤ (a - 1) / b * b + b := Nat.succ_le_of_lt h2

/-- The page count computed with natural ceiling division agrees with the
spec's `max(1, ceil(count / pageSize))` over the exact rationals. -/
theorem totalPagesFn_cast (a b : ℕ) (hb : 0 < b) :
    ((totalPagesFn a b : ℕ) : ℤ) = max 1 ⌈(a : ℚ) / (b : ℚ)⌉ := by
  unfold totalPagesFn
  rw [Nat.cast_max,
    ← ceil_eq_of_bounds ((a + b - 1) / b) a b hb (le_ceilDivNat_mul a b hb)
      (Nat.div_mul_le_self _ _)]
  norm_num

/-- C6: for every activity list, page size in {5, 10, 20} and integer page
request, `paginate` computes `totalPages = max(1, ceil(count / pageSize))`,
clamps the requested page into `[1, totalPages]` (so out-of-range requests
never fail), returns exactly the slice
`[(effectivePage - 1) * pageSize, effectivePage * pageSize)`, and returns
the empty slice on the empty list. -/
theorem C6_paginate (l : List Activity) (ps : ℕ)
    (hps : ps = 5 ∨ ps = 10 ∨ ps = 20) (req : ℤ) :
    ((paginate l ps req).totalPages : ℤ) = max 1 ⌈(l.length : ℚ) / (ps : ℚ)⌉ ∧
    (paginate l ps req).effectivePage =
      max 1 (min req ((paginate l ps req).totalPages : ℤ)) ∧
    1 ≤ (paginate l ps req).effectivePage ∧
    (paginate l ps req).effectivePage ≤ ((paginate l ps req).totalPages : ℤ) ∧
    (paginate l ps req).pageItems =
      (l.take ((paginate l ps req).effectivePage.toNat * ps)).drop
        (((paginate l ps req).effectivePage - 1).toNat * ps) ∧
    (l = [] → (paginate l ps req).pageItems = []) := by
  have hb : 0 < ps := by rcases hps with rfl | rfl | rfl <;> norm_num
  have hproj1 : (paginate l ps req).totalPages = totalPagesFn l.length ps := rfl
  have hproj2 : (paginate l ps req).effectivePage =
      clampPage req (totalPagesFn l.length ps) := rfl
  have hproj3 : (paginate l ps req).pageItems =
      (l.drop ((clampPage req (totalPagesFn l.length ps) - 1).toNat * ps)).take ps := rfl
  rw [hproj1, hproj2, hproj3]
  have hone : (1 : ℤ) ≤ (totalPagesFn l.length ps : ℤ) := by
    have : 1 ≤ totalPagesFn l.length ps := le_max_left _ _
    exact_mod_cast this
  have hpage1 : 1 ≤ clampPage req (totalPagesFn l.length ps) := le_max_left _ _
  refine ⟨totalPagesFn_cast l.length ps hb, rfl, hpage1,
    max_le hone (min_le_right _ _), ?_, ?_⟩
  · have harith : (clampPage req (totalPagesFn l.length ps) - 1).toNat * ps + ps =
        (clampPage req (totalPagesFn l.length ps)).toNat * ps := by
      have ht : (clampPage req (totalPagesFn l.length ps) - 1).toNat + 1 =
          (clampPage req (totalPagesFn l.length ps)).toNat := by omega
      calc (clampPage req (totalPagesFn l.length ps) - 1).toNat * ps + ps =
          ((clampPage req (totalPagesFn l.length ps) - 1).toNat + 1) * ps := by ring
        _ = (clampPage req (totalPagesFn l.length ps)).toNat * ps := by rw [ht]
    rw [List.take_drop, harith]
  · intro h
    subst h
    simp

/-- Concatenating the consecutive `ps`-sized chunks of a list rebuilds its
prefix of length `n * ps`. -/
theorem chunks_flatten (l : List Activity) (ps n : ℕ) :
    ((List.range n).map (fun i => (l.drop (i * ps)).take ps)).flatten = l.take (n * ps) := by
  induction n with
  | zero => simp
  | succ m ih =>
    rw [List.range_succ, List.map_append, List.flatten_append, ih]
    simp [Nat.succ_mul, List.take_add]

/-- C7: concatenating the page slices for pages 1 through `totalPages`
yields exactly the input list - every item on exactly one page, no
omission, no overlap. -/
theorem C7_pages_cover (l : List Activity) (ps : ℕ)
    (hps : ps = 5 ∨ ps = 10 ∨ ps = 20) :
    ((List.range (totalPagesFn l.length ps)).map
      (fun i : ℕ => (paginate l ps ((i : ℤ) + 1)).pageItems)).flatten = l := by
  have hb : 0 < ps := by rcases hps with rfl | rfl | rfl <;> norm_num
  have hmap : ∀ i ∈ List.range (totalPagesFn l.length ps),
      (paginate l ps ((i : ℤ) + 1)).pageItems = (l.drop (i * ps)).take ps := by
    intro i hi
    have hi' : i < totalPagesFn l.length ps := List.mem_range.mp hi
    have hle : (i : ℤ) + 1 ≤ (totalPagesFn l.length ps : ℤ) := by exact_mod_cast hi'
    have hclamp : clampPage ((i : ℤ) + 1) (totalPagesFn l.length ps) = (i : ℤ) + 1 := by
      unfold clampPage
      rw [min_eq_left hle, max_eq_right (by omega)]
    have hproj : (paginate l ps ((i : ℤ) + 1)).pageItems =
        (l.drop ((clampPage ((i : ℤ) + 1) (totalPagesFn l.length ps) - 1).toNat * ps)).take
          ps := rfl
    rw [hproj, hclamp]
    have ht : ((i : ℤ) + 1 - 1).toNat = i := by omega
    rw [ht]
  rw [List.map_congr_left hmap, chunks_flatten]
  have hlen : l.length ≤ totalPagesFn l.length ps * ps := by
    calc l.length ≤ ((l.length + ps - 1) / ps) * ps := le_ceilDivNat_mul _ _ hb
      _ ≤ totalPagesFn l.length ps * ps := Nat.mul_le_mul_right _ (le_max_right _ _)
  exact List.take_of_length_le hlen

/-- Witness for C6 at 12 identical activities, page size 5 and the
out-of-range request 7: 3 pages, request clamped. -/
theorem C6_witness :
    ((paginate (List.replicate 12 ⟨"City Museum", "", none, some 12⟩) 5 7).totalPages : ℤ) =
      max 1 ⌈((List.replicate 12
        (⟨"City Museum", "", none, some 12⟩ : Activity)).length : ℚ) / (5 : ℚ)⌉ ∧
    1 ≤ (paginate (List.replicate 12 ⟨"City Museum", "", none, some 12⟩) 5 7).effectivePage :=
  ⟨(C6_paginate (List.replicate 12 ⟨"City Museum", "", none, some 12⟩) 5
      (Or.inl rfl) 7).1,
    (C6_paginate (List.replicate 12 ⟨"City Museum", "", none, some 12⟩) 5
      (Or.inl rfl) 7).2.2.1⟩

/-- Witness for C7 at the same 12 activities and page size 5. -/
theorem C7_witness :
    ((List.range (totalPagesFn
        (List.replicate 12 (⟨"City Museum", "", none, some 12⟩ : Activity)).length 5)).map
      (fun i : ℕ => (paginate (List.replicate 12 ⟨"City Museum", "", none, some 12⟩) 5
        ((i : ℤ) + 1)).pageItems)).flatten =
      List.replicate 12 ⟨"City Museum", "", none, some 12⟩ :=
  C7_pages_cover (List.replicate 12 ⟨"City Museum", "", none, some 12⟩) 5 (Or.inl rfl)

/-- C8 as stated is false on the preset path: in the session state with
`page = 2`, `have_results = true` and `use_preset = true` (so the preset
application fires), applying the preset - and even the subsequent defensive
clamp against 12 surviving activities at page size 5 - leaves the page at
2, not 1. -/
theorem C8_counterexample :
    (⟨2, true, true, []⟩ : SessionState).usePreset = true ∧
    (applyPresetStep false none ⟨2, true, true, []⟩).page = 2 ∧
    (clampPageStep 12 5 (applyPresetStep false none ⟨2, true, true, []⟩)).page = 2 ∧
    ((2 : ℤ) = 1 → False) := by
  refine ⟨rfl, rfl, ?_, by omega⟩
  show clampPage 2 (totalPagesFn 12 5) = 2
  decide

/-- C8 amended: the current page is reset to 1 by a new search submission,
but a category-preset application leaves it unchanged; the pipeline
afterwards only clamps the stored page into `[1, totalPages]`. -/
theorem C8_page_transitions (s : SessionState) (r : Bool) (avg : Option ℚ)
    (total ps : ℕ) :
    (findActivitiesClick s).page = 1 ∧
    (applyPresetStep r avg s).page = s.page ∧
    1 ≤ (clampPageStep total ps s).page ∧
    (clampPageStep total ps s).page ≤ (totalPagesFn total ps : ℤ) := by
  refine ⟨rfl, ?_, le_max_left _ _, ?_⟩
  · unfold applyPresetStep
    split <;> rfl
  · have hone : (1 : ℤ) ≤ (totalPagesFn total ps : ℤ) := by
      have : 1 ≤ totalPagesFn total ps := le_max_left _ _
      exact_mod_cast this
    exact max_le hone (min_le_right _ _)

end AmadeusMeteo
